import Mathlib

/-!
Verification of the `process-flow-write` pipeline core: a shallow embedding of
`scripts/run_discovery.ts` (the crawl orchestrator) and `scripts/build_flow.ts`
(the flow synthesizer), together with the pieces of `scripts/lib.ts` they use.

JavaScript strings are modelled as Lean `String`s; character-level operations
(`toLowerCase`, `trim`, single-character regex replacement, decimal rendering of
numbers) are modelled on `String.data` so that everything evaluates inside the
kernel.  JS `Set` iteration order (insertion order, first occurrence kept) and
JS `Map` lookup (last write wins) are modelled explicitly.
-/

namespace ProcessFlow

/-! ### JS primitive models -/

/-- One decimal digit as a character, for rendering numbers the way JS string
interpolation does. -/
def digitChar (d : Nat) : Char :=
  if d = 0 then '0' else if d = 1 then '1' else if d = 2 then '2'
  else if d = 3 then '3' else if d = 4 then '4' else if d = 5 then '5'
  else if d = 6 then '6' else if d = 7 then '7' else if d = 8 then '8'
  else if d = 9 then '9' else '*'

/-- Inverse of `digitChar` on decimal digits. -/
def charToDigit (c : Char) : Nat :=
  if c = '0' then 0 else if c = '1' then 1 else if c = '2' then 2
  else if c = '3' then 3 else if c = '4' then 4 else if c = '5' then 5
  else if c = '6' then 6 else if c = '7' then 7 else if c = '8' then 8
  else if c = '9' then 9 else 10

/-- Decimal digit characters of `n`, most significant first; `fuel` bounds the
recursion and any `fuel ≥ n` is enough. -/
def decChars : Nat → Nat → List Char
  | 0, _ => []
  | fuel + 1, n => if n = 0 then [] else decChars fuel (n / 10) ++ [digitChar (n % 10)]

/-- The decimal string of a natural number, as produced by JS template-string
interpolation of a number. -/
def natStr (n : Nat) : String :=
  if n = 0 then "0" else ⟨decChars (n + 1) n⟩

/-- Decimal value of a character list, the left inverse used to prove that
`natStr` is injective. -/
def decVal (l : List Char) : Nat :=
  l.foldl (fun acc c => 10 * acc + charToDigit c) 0

/-- JS `value.toLowerCase()`, modelled per character. -/
def lowerStr (s : String) : String := ⟨s.data.map Char.toLower⟩

/-- JS `haystack.includes(needle)`: substring containment. -/
def includesStr (haystack needle : String) : Bool :=
  decide (needle.data <:+: haystack.data)

/-- JS `String.prototype.trim`, modelled per character. -/
def trimStr (s : String) : String :=
  ⟨((s.data.dropWhile Char.isWhitespace).reverse.dropWhile Char.isWhitespace).reverse⟩

/-- JS `Array.from(new Set(l))`: deduplication keeping the first occurrence of
each element, in insertion order. -/
def insertionDedup {α : Type} [DecidableEq α] (l : List α) : List α :=
  l.foldl (fun acc x => if x ∈ acc then acc else acc ++ [x]) []

/-- JS `[x0, …, xn].join(sep)`. -/
def joinSep (sep : String) : List String → String
  | [] => ""
  | [x] => x
  | x :: y :: xs => x ++ sep ++ joinSep sep (y :: xs)

/-- JS `new Map(entries).get(key)`: the value of the last entry whose key
matches, or none. -/
def mapGetLast {α β : Type} [DecidableEq α] : List (α × β) → α → Option β
  | [], _ => none
  | e :: rest, key =>
    match mapGetLast rest key with
    | some v => some v
    | none => if e.1 = key then some e.2 else none

/-! ### Data model (`scripts/build_flow.ts`) -/

/-- Model of `NavItem` of `build_flow.ts`. -/
structure NavItem where
  text : String
  href : Option String := none
deriving DecidableEq

/-- Model of `PageContext` of `build_flow.ts`; optional JS fields are `Option`s. -/
structure PageContext where
  url : String
  title : Option String := none
  navItems : Option (List NavItem) := none
  links : Option (List String) := none
  hasPasswordInput : Option Bool := none
  loginDetected : Option Bool := none
  hasSearchInput : Option Bool := none
deriving DecidableEq

/-- Model of `UxCounts` of `build_flow.ts`. -/
structure UxCounts where
  missingTitlePages : Option Nat := none
  multipleH1Pages : Option Nat := none
  imagesMissingAlt : Option Nat := none
  buttonsMissingLabel : Option Nat := none
  brokenLinks : Option Nat := none
deriving DecidableEq

/-- Model of `FlowNode` of `build_flow.ts`. -/
structure FlowNode where
  id : String
  url : String
  label : String
deriving DecidableEq

/-- The `flowMeta` record of `FlowArtifacts`. -/
structure FlowMeta where
  targetUrl : String
  generatedAt : String
  nodeCount : Nat
  edgeCount : Nat
deriving DecidableEq

/-- Model of `FlowArtifacts` of `build_flow.ts`. -/
structure FlowArtifacts where
  summary : String
  mermaid : String
  flowMeta : FlowMeta
  nodes : List FlowNode
  edges : List String
deriving DecidableEq

/-! ### Classification (`build_flow.ts` lines 62–87) -/

/-- Source: `const normalize = (value) => value.toLowerCase()`. -/
def normalize (value : String) : String := lowerStr value

/-- Source: `const hasKeyword = (value, keywords) =>
      keywords.some((keyword) => normalize(value).includes(keyword))`. -/
def hasKeyword (value : String) (keywords : List String) : Bool :=
  keywords.any (fun keyword => includesStr (normalize value) keyword)

/-- The filter predicate of `loginPages`. -/
def isLoginPage (page : PageContext) : Bool :=
  page.hasPasswordInput.getD false || page.loginDetected.getD false ||
    hasKeyword page.url ["login", "signin", "sign-in"]

/-- The string `` `${page.url} ${(page.title ?? "").toString()}` ``. -/
def urlTitle (page : PageContext) : String :=
  page.url ++ " " ++ page.title.getD ""

/-- The filter predicate of `checkoutPages`. -/
def isCheckoutPage (page : PageContext) : Bool :=
  hasKeyword (urlTitle page) ["cart", "checkout", "payment", "order", "basket"]

/-- The filter predicate of `accountPages`. -/
def isAccountPage (page : PageContext) : Bool :=
  hasKeyword (urlTitle page) ["account", "profile", "settings", "dashboard"]

/-- The filter predicate of `searchPages`. -/
def isSearchPage (page : PageContext) : Bool :=
  page.hasSearchInput.getD false || hasKeyword (urlTitle page) ["search"]

def loginPages (pages : List PageContext) : List PageContext := pages.filter isLoginPage

def checkoutPages (pages : List PageContext) : List PageContext := pages.filter isCheckoutPage

def accountPages (pages : List PageContext) : List PageContext := pages.filter isAccountPage

def searchPages (pages : List PageContext) : List PageContext := pages.filter isSearchPage

/-! ### Narrative summary (`build_flow.ts` lines 89–135) -/

/-- Source: `navSeeds`, nav item texts across all pages, empties dropped. -/
def navSeeds (pages : List PageContext) : List String :=
  ((pages.flatMap (fun page => page.navItems.getD [])).map (fun item => item.text)).filter
    (fun text => text ≠ "")

/-- Source: `uniqueNav = Array.from(new Set(navSeeds)).slice(0, 6)`. -/
def uniqueNav (pages : List PageContext) : List String :=
  (insertionDedup (navSeeds pages)).take 6

/-- The `summaryLines` array, line by line as pushed by the source. -/
def summaryLines (targetUrl : String) (pages : List PageContext) (uxCounts : UxCounts)
    (generatedAt : String) : List String :=
  ["# Process Flow Summary",
   "",
   "Target: " ++ (if targetUrl = "" then "Unknown" else targetUrl),
   "Generated: " ++ generatedAt,
   "",
   "## Main Flows",
   "- Public navigation: Home -> " ++
     (if (uniqueNav pages).length ≠ 0 then joinSep " -> " (uniqueNav pages) else "Primary pages")]
  ++ (if (loginPages pages).length ≠ 0 then
        ["- Login flow: Home -> Login -> Post-login landing"] else [])
  ++ (if (checkoutPages pages).length ≠ 0 then
        ["- Checkout flow: Browse -> Product -> Cart -> Checkout"] else [])
  ++ (if (searchPages pages).length ≠ 0 then
        ["- Search flow: Search -> Results -> Detail"] else [])
  ++ (if (accountPages pages).length ≠ 0 then
        ["- Account flow: Account -> Settings"] else [])
  ++ ["",
      "## Site Map",
      "- Pages discovered: " ++ natStr pages.length,
      "- Login-related pages: " ++ natStr (loginPages pages).length,
      "- Checkout-related pages: " ++ natStr (checkoutPages pages).length,
      "- Account-related pages: " ++ natStr (accountPages pages).length,
      "",
      "## UX Checks",
      "- Missing title pages: " ++ natStr (uxCounts.missingTitlePages.getD 0),
      "- Multiple H1 pages: " ++ natStr (uxCounts.multipleH1Pages.getD 0),
      "- Images missing alt: " ++ natStr (uxCounts.imagesMissingAlt.getD 0),
      "- Buttons missing label: " ++ natStr (uxCounts.buttonsMissingLabel.getD 0),
      "- Broken links (sample): " ++ natStr (uxCounts.brokenLinks.getD 0),
      "",
      "## Report Files",
      "- Flow diagram: flow.html",
      "- Mermaid source: flow.mmd",
      "- URLs: urls.json",
      "- Page context: pages.json",
      "- Screenshots: screenshots/"]

/-! ### Nodes and edges (`build_flow.ts` lines 137–161) -/

/-- Source: `const label = (page.title && page.title.trim()) || page.url`. -/
def labelOf (page : PageContext) : String :=
  match page.title with
  | some t => if trimStr t ≠ "" then trimStr t else page.url
  | none => page.url

/-- Source: `label.replace(/"/g, "'")`: every double quote becomes a single quote. -/
def sanitizeLabel (s : String) : String :=
  ⟨s.data.map (fun c => if c = '"' then Char.ofNat 39 else c)⟩

/-- The node built for the page at (0-based) index `i`. -/
def mkNode (i : Nat) (page : PageContext) : FlowNode :=
  { id := "p" ++ natStr (i + 1), url := page.url, label := sanitizeLabel (labelOf page) }

/-- Source: `pages.map((page, index) => …)` with the running index made explicit. -/
def nodesFrom (i : Nat) : List PageContext → List FlowNode
  | [] => []
  | page :: rest => mkNode i page :: nodesFrom (i + 1) rest

def nodesOf (pages : List PageContext) : List FlowNode := nodesFrom 0 pages

/-- Source: `const urlToId = new Map(nodes.map((node) => [node.url, node.id]))` read
through `.get`: the id of the last node with the given url. -/
def urlToId (nodes : List FlowNode) (u : String) : Option String :=
  mapGetLast (nodes.map (fun node => (node.url, node.id))) u

/-- The edge-construction double loop, producing `(fromId, toId)` pairs in
discovery order (pairs kept so that edge endpoints can be inspected). -/
def edgePairsOf (pages : List PageContext) (nodes : List FlowNode) : List (String × String) :=
  pages.flatMap (fun page =>
    match urlToId nodes page.url with
    | none => []
    | some fromId =>
      (page.links.getD []).filterMap (fun link =>
        (urlToId nodes link).map (fun toId => (fromId, toId))))

/-- Source: `` edges.push(`${fromId} --> ${toId}`) `` rendered as a string. -/
def edgeString (pr : String × String) : String := pr.1 ++ " --> " ++ pr.2

/-- The `edges` array of the source. -/
def edgeStringsOf (pages : List PageContext) (nodes : List FlowNode) : List String :=
  (edgePairsOf pages nodes).map edgeString

/-- Source: `const limitedEdges = Array.from(new Set(edges)).slice(0, 120)`. -/
def limitedEdgesOf (pages : List PageContext) (nodes : List FlowNode) : List String :=
  (insertionDedup (edgeStringsOf pages nodes)).take 120

/-! ### Diagram source (`build_flow.ts` lines 163–212) -/

def loginUrls (pages : List PageContext) : List String := (loginPages pages).map (fun p => p.url)

def checkoutUrls (pages : List PageContext) : List String :=
  (checkoutPages pages).map (fun p => p.url)

def accountUrls (pages : List PageContext) : List String :=
  (accountPages pages).map (fun p => p.url)

/-- Source: `` mermaid.push(`    ${node.id}["${node.label}"]`) ``. -/
def renderNodeLine (node : FlowNode) : String :=
  "    " ++ node.id ++ "[\"" ++ node.label ++ "\"]"

/-- The node lines of one grouping block: the nodes whose url is in the
group's url set, in node order. -/
def groupInner (urls : List String) (nodes : List FlowNode) : List String :=
  (nodes.filter (fun node => decide (node.url ∈ urls))).map renderNodeLine

/-- The node lines of the Public block: nodes tagged with none of
Login/Checkout/Account. -/
def publicInner (pages : List PageContext) (nodes : List FlowNode) : List String :=
  (nodes.filter (fun node =>
    !(decide (node.url ∈ loginUrls pages)) && !(decide (node.url ∈ checkoutUrls pages)) &&
      !(decide (node.url ∈ accountUrls pages)))).map renderNodeLine

/-- The `mermaid` array, block by block as pushed by the source. -/
def mermaidLinesOf (pages : List PageContext) (nodes : List FlowNode)
    (limitedEdges : List String) : List String :=
  ["flowchart LR", "  subgraph Public"] ++ publicInner pages nodes ++ ["  end"]
  ++ (if (loginPages pages).length ≠ 0 then
        ["  subgraph Auth"] ++ groupInner (loginUrls pages) nodes ++ ["  end"] else [])
  ++ (if (checkoutPages pages).length ≠ 0 then
        ["  subgraph Checkout"] ++ groupInner (checkoutUrls pages) nodes ++ ["  end"] else [])
  ++ (if (accountPages pages).length ≠ 0 then
        ["  subgraph Account"] ++ groupInner (accountUrls pages) nodes ++ ["  end"] else [])
  ++ limitedEdges.map (fun edge => "  " ++ edge)

/-- Model of `buildFlowArtifacts` of `build_flow.ts`. -/
def buildFlowArtifacts (targetUrl : String) (pages : List PageContext) (uxCounts : UxCounts)
    (generatedAt : String) : FlowArtifacts :=
  let nodes := nodesOf pages
  let limitedEdges := limitedEdgesOf pages nodes
  { summary := joinSep "\n" (summaryLines targetUrl pages uxCounts generatedAt)
    mermaid := joinSep "\n" (mermaidLinesOf pages nodes limitedEdges)
    flowMeta := { targetUrl := targetUrl, generatedAt := generatedAt,
                  nodeCount := nodes.length, edgeCount := limitedEdges.length }
    nodes := nodes
    edges := limitedEdges }

/-! ### Discovery orchestration (`scripts/run_discovery.ts`, `scripts/lib.ts`)

URL parsing is delegated by the source to the platform's `new URL(...)`;
it is modelled as an abstract parameter `origin : String → Option String`
returning the scheme+host+port origin of a URL, or `none` when `new URL`
would throw.  The outcomes of the external effects (the `docker info`
probe, `docker run`, the readiness probes, the spider/ajax/aggregation
phase, and `docker rm`) form a `DiscoveryWorld`; `runDiscovery` is `main`
together with its top-level `.catch`, evaluated against such a world, and
additionally returns how many times the teardown step (`docker rm -f`)
was invoked. -/

/-- One entry of the `urls` array of `urls.json`. -/
structure DiscoveredUrl where
  url : String
  source : String
deriving DecidableEq

/-- The discovered-URL artifact `urls.json` (the fields the core computes;
`forms` and `links` are always empty arrays and are omitted). -/
structure UrlsArtifact where
  targetUrl : String
  total : Nat
  sameOrigin : Nat
  urls : List DiscoveredUrl
  error : Option String
deriving DecidableEq

/-- Model of `writeFallbackUrls(reason)` of `run_discovery.ts` (lines 68–81). -/
def fallbackUrlsArtifact (targetUrl reason : String) : UrlsArtifact :=
  { targetUrl := targetUrl
    total := 1
    sameOrigin := 1
    urls := [{ url := targetUrl, source := "fallback" }]
    error := some reason }

/-- The per-URL check of `filterSameOrigin`: `new URL(url).origin === origin`,
with the per-URL `catch` returning false when `new URL(url)` throws. -/
def sameOriginCheck (origin : String → Option String) (t : String) (u : String) : Bool :=
  match origin u with
  | some o => o = t
  | none => false

/-- Model of `filterSameOrigin` of `lib.ts`: `none` when `new URL(target)` throws. -/
def filterSameOrigin (origin : String → Option String) (urls : List String)
    (target : String) : Option (List String) :=
  match origin target with
  | none => none
  | some t => some (urls.filter (sameOriginCheck origin t))

/-- The success-path `urls.json` write (lines 183–193): `urls` is the
deduplicated union, `filtered` its same-origin restriction. -/
def successUrlsArtifact (targetUrl : String) (urls filtered : List String) : UrlsArtifact :=
  { targetUrl := targetUrl
    total := urls.length
    sameOrigin := filtered.length
    urls := filtered.map (fun url => { url := url, source := "zap" })
    error := none }

/-- Outcomes of the external effects of one `run_discovery.ts` invocation. -/
structure DiscoveryWorld where
  /-- the code before the `docker info` probe (cookie acquisition) finishes
  without throwing -/
  preOk : Bool
  /-- whether `execSync("docker info")` succeeds -/
  dockerOk : Bool
  /-- whether `execSync("docker run -d …")` succeeds -/
  startOk : Bool
  /-- result of the readiness probe `fetch(zapBase/JSON/core/view/version/)`
  on each attempt -/
  ready : Nat → Bool
  /-- the spider, ajax-spider and result-fetch phases: either an exception or
  the pair (coreUrls, spiderUrls) of `core/view/urls` and `spider/view/results` -/
  scan : Except String (List String × List String)
  /-- whether `execSync("docker rm -f …")` succeeds -/
  teardownOk : Bool

/-- The readiness loop (lines 125–137): up to 90 attempts, one per second. -/
def engineReady (w : DiscoveryWorld) : Bool :=
  (List.range 90).any w.ready

/-- The body of the `try` block of `main` (lines 119–193), as an `Except`:
`.error` is an exception reaching the `catch`. -/
def tryScan (origin : String → Option String) (w : DiscoveryWorld)
    (target : String) : Except String UrlsArtifact :=
  if !w.startOk then .error "docker run failed"
  else if !engineReady w then .error "ZAP API did not become ready."
  else
    match w.scan with
    | .error e => .error e
    | .ok (coreUrls, spiderUrls) =>
      let urls := insertionDedup (coreUrls ++ spiderUrls)
      match filterSameOrigin origin urls target with
      | none => .error "invalid target URL"
      | some filtered => .ok (successUrlsArtifact target urls filtered)

/-- Model of `main().catch(…)` of `run_discovery.ts`: the artifact finally written to
`urls.json`, paired with the number of times the teardown step
(`docker rm -f` in the `finally` block, lines 197–205) was invoked. -/
def runDiscovery (origin : String → Option String) (w : DiscoveryWorld)
    (target : String) : UrlsArtifact × Nat :=
  if !w.preOk then
    -- an exception before the runtime probe escapes `main` and is caught by
    -- the top-level `.catch` (lines 208–211)
    (fallbackUrlsArtifact target "unexpected_error", 0)
  else if !w.dockerOk then
    -- `catch` at lines 94–98
    (fallbackUrlsArtifact target "docker_unavailable", 0)
  else
    -- `containerStarted` is set only after `docker run` succeeds (line 121)
    let containerStarted := w.startOk
    -- `catch` at lines 194–196
    let artifact :=
      match tryScan origin w target with
      | .ok a => a
      | .error _ => fallbackUrlsArtifact target "zap_failed"
    -- `finally` block: `try { execSync("docker rm -f …") } catch { /* ignore */ }`
    let teardown : Except String Unit :=
      if containerStarted then
        (if w.teardownOk then .ok () else .error "docker rm failed")
      else .ok ()
    let teardownRuns := if containerStarted then 1 else 0
    match teardown with
    | .ok _ => (artifact, teardownRuns)
    | .error _ => (artifact, teardownRuns)  -- cleanup error swallowed

/-! ### Properties of the primitive models -/

theorem charToDigit_digitChar : ∀ d < 10, charToDigit (digitChar d) = d := by decide

theorem decVal_append_singleton (l : List Char) (c : Char) :
    decVal (l ++ [c]) = 10 * decVal l + charToDigit c := by
  simp [decVal, List.foldl_append]

theorem decVal_decChars : ∀ fuel n, n ≤ fuel → decVal (decChars fuel n) = n := by
  intro fuel
  induction fuel with
  | zero => intro n hn; interval_cases n; simp [decChars, decVal]
  | succ fuel ih =>
    intro n hn
    by_cases h0 : n = 0
    · simp [decChars, h0, decVal]
    · have hdiv : n / 10 ≤ fuel := by
        have : n / 10 < n := Nat.div_lt_self (Nat.pos_of_ne_zero h0) (by norm_num)
        omega
      have hmod : n % 10 < 10 := Nat.mod_lt _ (by norm_num)
      simp only [decChars, h0, if_false, decVal_append_singleton, ih _ hdiv,
        charToDigit_digitChar _ hmod]
      omega

theorem decVal_natStr (n : Nat) : decVal (natStr n).data = n := by
  by_cases h : n = 0
  · subst h; rfl
  · simp only [natStr, h, if_false]
    exact decVal_decChars _ n (by omega)

theorem natStr_injective : Function.Injective natStr := by
  intro a b hab
  have := congrArg (fun s : String => decVal s.data) hab
  simpa [decVal_natStr] using this

/-- Left cancellation for string append. -/
theorem string_append_left_cancel {a b c : String} (h : a ++ b = a ++ c) : b = c := by
  have := congrArg String.data h
  simp only [String.data_append] at this
  exact String.ext (List.append_cancel_left this)

theorem mem_dedupStep {α : Type} [DecidableEq α] (acc : List α) (x y : α) :
    y ∈ (if x ∈ acc then acc else acc ++ [x]) ↔ y ∈ acc ∨ y = x := by
  by_cases h : x ∈ acc
  · simp only [if_pos h]
    exact ⟨fun hy => Or.inl hy, fun hy => hy.elim id (fun hyx => hyx ▸ h)⟩
  · simp [if_neg h, List.mem_append]

theorem mem_insertionDedup_core {α : Type} [DecidableEq α] (l acc : List α) (y : α) :
    y ∈ l.foldl (fun acc x => if x ∈ acc then acc else acc ++ [x]) acc ↔ y ∈ acc ∨ y ∈ l := by
  induction l generalizing acc with
  | nil => simp
  | cons a t ih =>
    simp only [List.foldl_cons, ih, mem_dedupStep, List.mem_cons]
    tauto

theorem mem_insertionDedup {α : Type} [DecidableEq α] (l : List α) (y : α) :
    y ∈ insertionDedup l ↔ y ∈ l := by
  simp [insertionDedup, mem_insertionDedup_core]

theorem nodup_insertionDedup_core {α : Type} [DecidableEq α] (l : List α) :
    ∀ acc : List α, acc.Nodup →
      (l.foldl (fun acc x => if x ∈ acc then acc else acc ++ [x]) acc).Nodup := by
  induction l with
  | nil => intro acc h; simpa using h
  | cons a t ih =>
    intro acc hacc
    simp only [List.foldl_cons]
    apply ih
    by_cases h : a ∈ acc
    · simpa [h] using hacc
    · simp only [h, if_false]
      refine List.Nodup.append hacc (List.nodup_singleton a) ?_
      intro b hb hba
      rw [List.mem_singleton] at hba
      exact h (hba ▸ hb)

theorem nodup_insertionDedup {α : Type} [DecidableEq α] (l : List α) :
    (insertionDedup l).Nodup :=
  nodup_insertionDedup_core l [] List.nodup_nil

theorem toFinset_insertionDedup {α : Type} [DecidableEq α] (l : List α) :
    (insertionDedup l).toFinset = l.toFinset := by
  ext x
  simp [List.mem_toFinset, mem_insertionDedup]

theorem length_insertionDedup {α : Type} [DecidableEq α] (l : List α) :
    (insertionDedup l).length = l.toFinset.card := by
  rw [← toFinset_insertionDedup]
  exact (List.toFinset_card_of_nodup (nodup_insertionDedup l)).symm

theorem joinSep_mem_split (sep : String) :
    ∀ (l : List String) (s : String), s ∈ l →
      ∃ pre post, joinSep sep l = pre ++ s ++ post := by
  intro l
  induction l with
  | nil => intro s hs; simp at hs
  | cons x t ih =>
    intro s hs
    match t with
    | [] =>
      have : s = x := by simpa using hs
      exact ⟨"", "", by simp [joinSep, this]⟩
    | y :: xs =>
      rcases List.mem_cons.mp hs with h | h
      · exact ⟨"", sep ++ joinSep sep (y :: xs), by
          simp [joinSep, h, String.append_assoc]⟩
      · obtain ⟨pre, post, hpre⟩ := ih s h
        exact ⟨x ++ sep ++ pre, post, by
          simp [joinSep, hpre, String.append_assoc]⟩

theorem mapGetLast_eq_none_iff {α β : Type} [DecidableEq α] (l : List (α × β)) (key : α) :
    mapGetLast l key = none ↔ ∀ e ∈ l, e.1 ≠ key := by
  induction l with
  | nil => simp [mapGetLast]
  | cons a t ih =>
    simp only [mapGetLast]
    cases htail : mapGetLast t key with
    | some v =>
      simp only [reduceCtorEq, false_iff]
      intro hall
      have : mapGetLast t key = none :=
        ih.mpr (fun e he => hall e (List.mem_cons_of_mem _ he))
      simp [this] at htail
    | none =>
      have htnone : ∀ e ∈ t, e.1 ≠ key := ih.mp htail
      by_cases ha : a.1 = key
      · simp only [ha, if_true, reduceCtorEq, false_iff]
        intro hall
        exact hall a (List.mem_cons_self a t) ha
      · simp only [if_neg ha, true_iff]
        intro e he
        rcases List.mem_cons.mp he with rfl | he'
        · exact ha
        · exact htnone e he'

theorem mapGetLast_eq_some {α β : Type} [DecidableEq α] (l : List (α × β)) (key : α) (v : β)
    (h : mapGetLast l key = some v) :
    ∃ k, ∃ hk : k < l.length, l.get ⟨k, hk⟩ = (key, v) ∧
      ∀ k', ∀ hk' : k' < l.length, k < k' → (l.get ⟨k', hk'⟩).1 ≠ key := by
  induction l with
  | nil => simp [mapGetLast] at h
  | cons a t ih =>
    simp only [mapGetLast] at h
    cases htail : mapGetLast t key with
    | some w =>
      rw [htail] at h
      obtain rfl : w = v := by simpa using h
      obtain ⟨k, hk, hget, hafter⟩ := ih htail
      refine ⟨k + 1, by simpa using Nat.succ_lt_succ hk,
        by simpa [List.get_cons_succ] using hget, ?_⟩
      intro k' hk' hlt
      cases k' with
      | zero => omega
      | succ k'' =>
        have hk2 : k'' < t.length := by
          simp only [List.length_cons] at hk'
          omega
        simpa [List.get_cons_succ] using hafter k'' hk2 (by omega)
    | none =>
      rw [htail] at h
      by_cases ha : a.1 = key
      · simp only [ha, if_true, Option.some.injEq] at h
        refine ⟨0, by simp, ?_, ?_⟩
        · cases a
          simp_all
        · intro k' hk' hlt
          cases k' with
          | zero => omega
          | succ k'' =>
            have hk2 : k'' < t.length := by
              simp only [List.length_cons] at hk'
              omega
            have hmem : t.get ⟨k'', hk2⟩ ∈ t := List.get_mem t k'' hk2
            have := (mapGetLast_eq_none_iff t key).mp htail _ hmem
            simpa [List.get_cons_succ] using this
      · simp [ha] at h

theorem sameOriginCheck_iff (origin : String → Option String) (t u : String) :
    sameOriginCheck origin t u = true ↔ origin u = some t := by
  cases ho : origin u <;> simp [sameOriginCheck, ho]

/-! ### Shape lemmas for `runDiscovery` -/

theorem runDiscovery_fst (origin : String → Option String) (w : DiscoveryWorld)
    (target : String) :
    (runDiscovery origin w target).1 =
      if !w.preOk then fallbackUrlsArtifact target "unexpected_error"
      else if !w.dockerOk then fallbackUrlsArtifact target "docker_unavailable"
      else
        match tryScan origin w target with
        | .ok a => a
        | .error _ => fallbackUrlsArtifact target "zap_failed" := by
  cases hpre : w.preOk <;> cases hdo : w.dockerOk <;> cases htd : w.teardownOk <;>
    cases hst : w.startOk <;> simp [runDiscovery, hpre, hdo, htd, hst]

theorem runDiscovery_snd (origin : String → Option String) (w : DiscoveryWorld)
    (target : String) :
    (runDiscovery origin w target).2 =
      if w.preOk && w.dockerOk && w.startOk then 1 else 0 := by
  cases hpre : w.preOk <;> cases hdo : w.dockerOk <;> cases htd : w.teardownOk <;>
    cases hst : w.startOk <;> simp [runDiscovery, hpre, hdo, htd, hst]

theorem runDiscovery_artifact_cases (origin : String → Option String) (w : DiscoveryWorld)
    (target : String) :
    (∃ urls filtered, (runDiscovery origin w target).1 =
        successUrlsArtifact target urls filtered) ∨
      ∃ reason, (runDiscovery origin w target).1 = fallbackUrlsArtifact target reason := by
  rw [runDiscovery_fst]
  cases hpre : w.preOk
  · exact Or.inr ⟨"unexpected_error", by simp⟩
  · cases hdo : w.dockerOk
    · exact Or.inr ⟨"docker_unavailable", by simp⟩
    · simp only [Bool.not_true, Bool.false_eq_true, if_false]
      cases hts : tryScan origin w target with
      | error e => exact Or.inr ⟨"zap_failed", rfl⟩
      | ok a =>
        left
        unfold tryScan at hts
        cases hst : w.startOk
        · simp [hst] at hts
        · cases hrd : engineReady w
          · simp [hst, hrd] at hts
          · cases hsc : w.scan with
            | error e => simp [hst, hrd, hsc] at hts
            | ok pr =>
              obtain ⟨coreUrls, spiderUrls⟩ := pr
              cases hf : filterSameOrigin origin (insertionDedup (coreUrls ++ spiderUrls))
                  target with
              | none => simp [hst, hrd, hsc, hf] at hts
              | some filtered =>
                simp only [hst, hrd, hsc, hf, Bool.not_true, Bool.false_eq_true, if_false,
                  Except.ok.injEq] at hts
                exact ⟨_, _, hts.symm⟩

/-! ### Claims C1–C4 -/

/-- C1: whenever the ephemeral engine instance was started (the `docker run`
step succeeded after the runtime probe passed), the teardown step is executed
exactly once before `runDiscovery` returns — on the success, scan-failure and
ready-timeout paths alike (all captured by quantifying over `w.ready` and
`w.scan`) — and a failure of teardown itself never changes the outcome: the
result is identical for a failing and a succeeding `docker rm`. -/
theorem c1_teardown_exactly_once (origin : String → Option String) (w : DiscoveryWorld)
    (target : String) (hpre : w.preOk = true) (hdocker : w.dockerOk = true)
    (hstart : w.startOk = true) :
    (runDiscovery origin w target).2 = 1 ∧
      ∀ b, runDiscovery origin { w with teardownOk := b } target =
        runDiscovery origin w target := by
  constructor
  · rw [runDiscovery_snd]
    simp [hpre, hdocker, hstart]
  · intro b
    cases b <;> cases htd : w.teardownOk <;>
      simp [runDiscovery, hpre, hdocker, hstart, htd, tryScan, engineReady]

/-- Witness for C1 at a concrete ready-timeout world whose teardown also
fails. -/
theorem c1_teardown_exactly_once_witness :
    (runDiscovery (fun _ => some "o")
        ⟨true, true, true, fun _ => false, .ok ([], []), false⟩ "https://x/").2 = 1 ∧
      ∀ b, runDiscovery (fun _ => some "o")
          { (⟨true, true, true, fun _ => false, .ok ([], []), false⟩ : DiscoveryWorld) with
              teardownOk := b } "https://x/" =
        runDiscovery (fun _ => some "o")
          ⟨true, true, true, fun _ => false, .ok ([], []), false⟩ "https://x/" :=
  c1_teardown_exactly_once (fun _ => some "o")
    ⟨true, true, true, fun _ => false, .ok ([], []), false⟩ "https://x/" rfl rfl rfl

/-- C2 (amended): the `error` field of the discovered-URL artifact is `none`
on success and otherwise one of exactly three reason codes:
`docker_unavailable` when the runtime probe fails, `zap_failed` when the
engine start fails, the 90-attempt readiness budget is exhausted, or an
exception occurs during spidering/aggregation, and `unexpected_error` when an
exception escapes to the top-level catch.  (There is no `ready_timeout`,
`engine_unavailable` or `scan_failed` code.) -/
theorem c2_reason_codes (origin : String → Option String) (w : DiscoveryWorld)
    (target : String) :
    ((runDiscovery origin w target).1.error = none ∨
      (runDiscovery origin w target).1.error = some "docker_unavailable" ∨
      (runDiscovery origin w target).1.error = some "zap_failed" ∨
      (runDiscovery origin w target).1.error = some "unexpected_error") ∧
    (runDiscovery origin w target).1.error =
      (if !w.preOk then some "unexpected_error"
       else if !w.dockerOk then some "docker_unavailable"
       else if !w.startOk then some "zap_failed"
       else if !engineReady w then some "zap_failed"
       else
         match w.scan with
         | .error _ => some "zap_failed"
         | .ok (coreUrls, spiderUrls) =>
           match filterSameOrigin origin (insertionDedup (coreUrls ++ spiderUrls)) target with
           | none => some "zap_failed"
           | some _ => none) := by
  have hmap : (runDiscovery origin w target).1.error =
      (if !w.preOk then some "unexpected_error"
       else if !w.dockerOk then some "docker_unavailable"
       else if !w.startOk then some "zap_failed"
       else if !engineReady w then some "zap_failed"
       else
         match w.scan with
         | .error _ => some "zap_failed"
         | .ok (coreUrls, spiderUrls) =>
           match filterSameOrigin origin (insertionDedup (coreUrls ++ spiderUrls)) target with
           | none => some "zap_failed"
           | some _ => none) := by
    rw [runDiscovery_fst]
    cases hpre : w.preOk <;> cases hdo : w.dockerOk <;> cases hst : w.startOk <;>
        cases hrd : engineReady w <;>
      simp only [Bool.not_true, Bool.not_false, if_true, if_false, tryScan, hst, hrd,
        fallbackUrlsArtifact]
    all_goals
      cases hsc : w.scan with
      | error e => simp [fallbackUrlsArtifact]
      | ok pr =>
        obtain ⟨coreUrls, spiderUrls⟩ := pr
        cases hf : filterSameOrigin origin (insertionDedup (coreUrls ++ spiderUrls)) target <;>
          simp [hf, fallbackUrlsArtifact, successUrlsArtifact]
  refine ⟨?_, hmap⟩
  rw [hmap]
  cases hpre : w.preOk <;> cases hdo : w.dockerOk <;> cases hst : w.startOk <;>
      cases hrd : engineReady w <;> simp
  all_goals
    cases hsc : w.scan with
    | error e => simp
    | ok pr =>
      obtain ⟨coreUrls, spiderUrls⟩ := pr
      cases hf : filterSameOrigin origin (insertionDedup (coreUrls ++ spiderUrls)) target <;>
        simp [hf]

/-- C2 counterexample: at a world where the engine starts but the 90-attempt
readiness budget is exhausted, the error code written is `zap_failed`, which is
none of the four codes the claim allows (in particular not `ready_timeout`). -/
theorem c2_counterexample :
    (runDiscovery (fun _ => some "o")
        ⟨true, true, true, fun _ => false, .ok ([], []), true⟩ "https://x/").1.error
      = some "zap_failed" ∧
    ("zap_failed" : String) ≠ "engine_unavailable" ∧
    ("zap_failed" : String) ≠ "ready_timeout" ∧
    ("zap_failed" : String) ≠ "scan_failed" ∧
    ("zap_failed" : String) ≠ "unexpected_error" := by
  refine ⟨by decide, by decide, by decide, by decide, by decide⟩

/-- C3 (amended): on the successful terminal path of discovery every entry of
the produced URL set carries `source = "zap"` (the engine's identifier; the
literal is `"zap"`, not `"engine"`), and the set is the union of the engine's
full URL set and the spider's result set, deduplicated and filtered to the
target's origin. -/
theorem c3_success_urls (origin : String → Option String) (w : DiscoveryWorld)
    (target t : String) (hpre : w.preOk = true) (hdocker : w.dockerOk = true)
    (hstart : w.startOk = true) (hready : engineReady w = true)
    (coreUrls spiderUrls : List String) (hscan : w.scan = .ok (coreUrls, spiderUrls))
    (ht : origin target = some t) :
    (∀ u : String,
        ({ url := u, source := "zap" } : DiscoveredUrl) ∈ (runDiscovery origin w target).1.urls ↔
          ((u ∈ coreUrls ∨ u ∈ spiderUrls) ∧ origin u = some t)) ∧
    (∀ e ∈ (runDiscovery origin w target).1.urls, e.source = "zap") ∧
    ((runDiscovery origin w target).1.urls.map (fun e => e.url)).Nodup ∧
    (∀ e ∈ (runDiscovery origin w target).1.urls, origin e.url = some t) ∧
    (runDiscovery origin w target).1.error = none := by
  have hurls : (runDiscovery origin w target).1 =
      successUrlsArtifact target (insertionDedup (coreUrls ++ spiderUrls))
        ((insertionDedup (coreUrls ++ spiderUrls)).filter (sameOriginCheck origin t)) := by
    rw [runDiscovery_fst]
    simp [hpre, hdocker, tryScan, hstart, hready, hscan, filterSameOrigin, ht]
  rw [hurls]
  refine ⟨?_, ?_, ?_, ?_, rfl⟩
  · intro u
    constructor
    · intro hu
      obtain ⟨v, hv, hvu⟩ := List.mem_map.mp hu
      obtain rfl : v = u := congrArg DiscoveredUrl.url hvu
      obtain ⟨hmem, hp⟩ := List.mem_filter.mp hv
      rw [mem_insertionDedup, List.mem_append] at hmem
      exact ⟨hmem, (sameOriginCheck_iff origin t v).mp hp⟩
    · rintro ⟨hu, ho⟩
      refine List.mem_map.mpr ⟨u, List.mem_filter.mpr ⟨?_, ?_⟩, rfl⟩
      · rw [mem_insertionDedup, List.mem_append]
        exact hu
      · exact (sameOriginCheck_iff origin t u).mpr ho
  · intro e he
    obtain ⟨v, _, rfl⟩ := List.mem_map.mp he
    rfl
  · show ((((insertionDedup (coreUrls ++ spiderUrls)).filter
        (sameOriginCheck origin t)).map
          (fun url => ({ url := url, source := "zap" } : DiscoveredUrl))).map
            (fun e => e.url)).Nodup
    rw [List.map_map]
    have : ((insertionDedup (coreUrls ++ spiderUrls)).filter
        (sameOriginCheck origin t)).map
          ((fun (e : DiscoveredUrl) => e.url) ∘
            (fun url => ({ url := url, source := "zap" } : DiscoveredUrl))) =
        (insertionDedup (coreUrls ++ spiderUrls)).filter (sameOriginCheck origin t) :=
      List.map_id' _
    rw [this]
    exact List.Nodup.filter _ (nodup_insertionDedup _)
  · intro e he
    obtain ⟨v, hv, rfl⟩ := List.mem_map.mp he
    obtain ⟨-, hp⟩ := List.mem_filter.mp hv
    exact (sameOriginCheck_iff origin t v).mp hp

/-- Witness for C3 at a concrete successful world. -/
theorem c3_success_urls_witness :
    (∀ u : String,
        ({ url := u, source := "zap" } : DiscoveredUrl) ∈
            (runDiscovery (fun _ => some "o")
              ⟨true, true, true, fun _ => true, .ok (["a", "b"], ["b", "c"]), true⟩
              "https://x/").1.urls ↔
          ((u ∈ ["a", "b"] ∨ u ∈ ["b", "c"]) ∧ (fun _ : String => some "o") u = some "o")) ∧
    (∀ e ∈ (runDiscovery (fun _ => some "o")
        ⟨true, true, true, fun _ => true, .ok (["a", "b"], ["b", "c"]), true⟩
        "https://x/").1.urls, e.source = "zap") ∧
    ((runDiscovery (fun _ => some "o")
        ⟨true, true, true, fun _ => true, .ok (["a", "b"], ["b", "c"]), true⟩
        "https://x/").1.urls.map (fun e => e.url)).Nodup ∧
    (∀ e ∈ (runDiscovery (fun _ => some "o")
        ⟨true, true, true, fun _ => true, .ok (["a", "b"], ["b", "c"]), true⟩
        "https://x/").1.urls, (fun _ : String => some "o") e.url = some "o") ∧
    (runDiscovery (fun _ => some "o")
        ⟨true, true, true, fun _ => true, .ok (["a", "b"], ["b", "c"]), true⟩
        "https://x/").1.error = none :=
  c3_success_urls (fun _ => some "o")
    ⟨true, true, true, fun _ => true, .ok (["a", "b"], ["b", "c"]), true⟩
    "https://x/" "o" rfl rfl rfl (by decide) ["a", "b"] ["b", "c"] rfl rfl

/-- C3 counterexample: on a concrete successful run every produced entry has
`source = "zap"`; in particular the set is nonempty and its first entry's
source differs from the literal `"engine"` the claim states. -/
theorem c3_counterexample :
    (runDiscovery (fun _ => some "o")
        ⟨true, true, true, fun _ => true, .ok (["https://x/"], []), true⟩
        "https://x/").1.urls = [{ url := "https://x/", source := "zap" }] ∧
    ("zap" : String) ≠ "engine" := by
  refine ⟨by decide, by decide⟩

/-- C4: every fallback artifact — written whenever live scanning cannot
complete, i.e. on every non-success path of `runDiscovery` — contains exactly
one URL entry, whose url is the target and whose source is `"fallback"`, with
counts `total = 1` and `sameOrigin = 1`; such a set is trivially deduplicated
and same-origin-filtered. -/
theorem c4_fallback_shape (origin : String → Option String) (w : DiscoveryWorld)
    (target : String) :
    ((runDiscovery origin w target).1.error = none ∨
      ∃ reason, (runDiscovery origin w target).1 = fallbackUrlsArtifact target reason) ∧
    ∀ reason : String,
      (fallbackUrlsArtifact target reason).urls = [{ url := target, source := "fallback" }] ∧
      (fallbackUrlsArtifact target reason).total = 1 ∧
      (fallbackUrlsArtifact target reason).sameOrigin = 1 ∧
      (fallbackUrlsArtifact target reason).urls.Nodup ∧
      ∀ e ∈ (fallbackUrlsArtifact target reason).urls,
        e.url = target ∧ e.source = "fallback" ∧ origin e.url = origin target := by
  constructor
  · rcases runDiscovery_artifact_cases origin w target with ⟨urls, filtered, h⟩ | ⟨reason, h⟩
    · left
      rw [h]
      rfl
    · exact Or.inr ⟨reason, h⟩
  · intro reason
    refine ⟨rfl, rfl, rfl, List.nodup_singleton _, ?_⟩
    intro e he
    obtain rfl : e = { url := target, source := "fallback" } := by
      simpa [fallbackUrlsArtifact] using he
    exact ⟨rfl, rfl, rfl⟩

/-- Witness for C4 at a concrete runtime-probe-failure world, with the
per-entry facts extracted at the single member. -/
theorem c4_fallback_shape_witness :
    (fallbackUrlsArtifact "https://x/" "docker_unavailable").urls =
        [{ url := "https://x/", source := "fallback" }] ∧
    (fallbackUrlsArtifact "https://x/" "docker_unavailable").total = 1 ∧
    (fallbackUrlsArtifact "https://x/" "docker_unavailable").urls.Nodup ∧
    ({ url := "https://x/", source := "fallback" } : DiscoveredUrl).url = "https://x/" := by
  have h := c4_fallback_shape (fun _ => some "o")
    ⟨true, false, false, fun _ => false, .ok ([], []), true⟩ "https://x/"
  have h4 := h.2 "docker_unavailable"
  exact ⟨h4.1, h4.2.1, h4.2.2.2.1,
    (h4.2.2.2.2 { url := "https://x/", source := "fallback" }
      (by rw [h4.1]; exact List.mem_singleton_self _)).1⟩

/-! ### Shape lemmas for `buildFlowArtifacts` -/

theorem buildFlowArtifacts_nodes (targetUrl : String) (pages : List PageContext)
    (uxCounts : UxCounts) (generatedAt : String) :
    (buildFlowArtifacts targetUrl pages uxCounts generatedAt).nodes = nodesOf pages := rfl

theorem buildFlowArtifacts_edges (targetUrl : String) (pages : List PageContext)
    (uxCounts : UxCounts) (generatedAt : String) :
    (buildFlowArtifacts targetUrl pages uxCounts generatedAt).edges =
      limitedEdgesOf pages (nodesOf pages) := rfl

theorem buildFlowArtifacts_nodeCount (targetUrl : String) (pages : List PageContext)
    (uxCounts : UxCounts) (generatedAt : String) :
    (buildFlowArtifacts targetUrl pages uxCounts generatedAt).flowMeta.nodeCount =
      (nodesOf pages).length := rfl

theorem buildFlowArtifacts_edgeCount (targetUrl : String) (pages : List PageContext)
    (uxCounts : UxCounts) (generatedAt : String) :
    (buildFlowArtifacts targetUrl pages uxCounts generatedAt).flowMeta.edgeCount =
      (limitedEdgesOf pages (nodesOf pages)).length := rfl

theorem buildFlowArtifacts_summary (targetUrl : String) (pages : List PageContext)
    (uxCounts : UxCounts) (generatedAt : String) :
    (buildFlowArtifacts targetUrl pages uxCounts generatedAt).summary =
      joinSep "\n" (summaryLines targetUrl pages uxCounts generatedAt) := rfl

theorem buildFlowArtifacts_mermaid (targetUrl : String) (pages : List PageContext)
    (uxCounts : UxCounts) (generatedAt : String) :
    (buildFlowArtifacts targetUrl pages uxCounts generatedAt).mermaid =
      joinSep "\n" (mermaidLinesOf pages (nodesOf pages) (limitedEdgesOf pages (nodesOf pages))) :=
  rfl

/-! ### Node lemmas -/

theorem length_nodesFrom (ps : List PageContext) : ∀ i, (nodesFrom i ps).length = ps.length := by
  induction ps with
  | nil => intro i; rfl
  | cons p rest ih => intro i; simp [nodesFrom, ih]

theorem map_url_nodesFrom (ps : List PageContext) :
    ∀ i, (nodesFrom i ps).map (fun n => n.url) = ps.map (fun p => p.url) := by
  induction ps with
  | nil => intro i; rfl
  | cons p rest ih => intro i; simp [nodesFrom, ih, mkNode]

theorem nodesFrom_get (ps : List PageContext) :
    ∀ i k (hk1 : k < (nodesFrom i ps).length) (hk2 : k < ps.length),
      (nodesFrom i ps).get ⟨k, hk1⟩ = mkNode (i + k) (ps.get ⟨k, hk2⟩) := by
  induction ps with
  | nil => intro i k hk1 hk2; simp at hk2
  | cons p rest ih =>
    intro i k hk1 hk2
    cases k with
    | zero => simp [nodesFrom]
    | succ k' =>
      have hk1' : k' < (nodesFrom (i + 1) rest).length := by
        simp only [nodesFrom, List.length_cons] at hk1
        omega
      have hk2' : k' < rest.length := by
        simp only [List.length_cons] at hk2
        omega
      have := ih (i + 1) k' hk1' hk2'
      simp only [nodesFrom, List.get_cons_succ]
      rw [this]
      congr 1
      omega

theorem mem_map_id_nodesFrom (ps : List PageContext) :
    ∀ i x, x ∈ (nodesFrom i ps).map (fun n => n.id) →
      ∃ k, k < ps.length ∧ x = "p" ++ natStr (i + k + 1) := by
  induction ps with
  | nil => intro i x hx; simp [nodesFrom] at hx
  | cons p rest ih =>
    intro i x hx
    simp only [nodesFrom, List.map_cons, List.mem_cons] at hx
    rcases hx with rfl | hx
    · exact ⟨0, by simp, by simp [mkNode]⟩
    · obtain ⟨k, hk, hx⟩ := ih (i + 1) x hx
      refine ⟨k + 1, by simpa using Nat.succ_lt_succ hk, ?_⟩
      rw [hx]
      congr 2
      omega

theorem nodup_map_id_nodesFrom (ps : List PageContext) :
    ∀ i, ((nodesFrom i ps).map (fun n => n.id)).Nodup := by
  induction ps with
  | nil => intro i; simp [nodesFrom]
  | cons p rest ih =>
    intro i
    simp only [nodesFrom, List.map_cons, List.nodup_cons]
    refine ⟨?_, ih (i + 1)⟩
    intro hmem
    obtain ⟨k, hk, hx⟩ := mem_map_id_nodesFrom rest (i + 1) _ hmem
    have heq : natStr (i + 1) = natStr (i + 1 + k + 1) :=
      string_append_left_cancel (a := "p") (by simpa [mkNode] using hx)
    have := natStr_injective heq
    omega

theorem nodup_nodesOf (pages : List PageContext) : (nodesOf pages).Nodup :=
  List.Nodup.of_map _ (nodup_map_id_nodesFrom pages 0)

/-! ### Claim C5 -/

/-- C5: synthesis produces exactly one node per page in input order (urls in
input order, one node each), reports `nodeCount` equal to the number of pages,
assigns the id `p(k+1)` to the `k`-th node positionally, and all node ids are
pairwise distinct. -/
theorem c5_nodes (targetUrl : String) (pages : List PageContext) (uxCounts : UxCounts)
    (generatedAt : String) :
    (buildFlowArtifacts targetUrl pages uxCounts generatedAt).flowMeta.nodeCount =
        pages.length ∧
    (buildFlowArtifacts targetUrl pages uxCounts generatedAt).nodes.length = pages.length ∧
    (buildFlowArtifacts targetUrl pages uxCounts generatedAt).nodes.map (fun n => n.url) =
        pages.map (fun p => p.url) ∧
    ((buildFlowArtifacts targetUrl pages uxCounts generatedAt).nodes.map
        (fun n => n.id)).Nodup ∧
    ∀ k, ∀ hk : k < (buildFlowArtifacts targetUrl pages uxCounts generatedAt).nodes.length,
      ((buildFlowArtifacts targetUrl pages uxCounts generatedAt).nodes.get ⟨k, hk⟩).id =
        "p" ++ natStr (k + 1) := by
  rw [buildFlowArtifacts_nodeCount, buildFlowArtifacts_nodes]
  refine ⟨length_nodesFrom pages 0, length_nodesFrom pages 0, map_url_nodesFrom pages 0,
    nodup_map_id_nodesFrom pages 0, ?_⟩
  intro k hk
  have hk' : k < (nodesFrom 0 pages).length := hk
  have hk2 : k < pages.length := by rwa [length_nodesFrom] at hk'
  show ((nodesFrom 0 pages).get ⟨k, hk'⟩).id = "p" ++ natStr (k + 1)
  rw [nodesFrom_get pages 0 k hk' hk2]
  simp [mkNode]

/-- Witness for C5 on the two-page scenario of the spec. -/
theorem c5_nodes_witness :
    (buildFlowArtifacts "https://x/"
        [{ url := "https://x/", title := some "Home", links := some ["https://x/login"] },
         { url := "https://x/login", title := some "Login", hasPasswordInput := some true }]
        {} "T").flowMeta.nodeCount = 2 ∧
    ((buildFlowArtifacts "https://x/"
        [{ url := "https://x/", title := some "Home", links := some ["https://x/login"] },
         { url := "https://x/login", title := some "Login", hasPasswordInput := some true }]
        {} "T").nodes.get ⟨1, by decide⟩).id = "p" ++ natStr 2 := by
  have h := c5_nodes "https://x/"
    [{ url := "https://x/", title := some "Home", links := some ["https://x/login"] },
     { url := "https://x/login", title := some "Login", hasPasswordInput := some true }]
    {} "T"
  exact ⟨h.1, h.2.2.2.2 1 (by decide)⟩

/-! ### Edge lemmas -/

theorem urlToId_some_mem (nodes : List FlowNode) (u v : String)
    (h : urlToId nodes u = some v) : ∃ n ∈ nodes, n.url = u ∧ n.id = v := by
  unfold urlToId at h
  induction nodes with
  | nil => simp [mapGetLast] at h
  | cons n rest ih =>
    simp only [List.map_cons, mapGetLast] at h
    cases htail : mapGetLast (rest.map (fun node => (node.url, node.id))) u with
    | some w =>
      rw [htail] at h
      obtain rfl : w = v := by simpa using h
      obtain ⟨m, hm, hmu, hmv⟩ := ih htail
      exact ⟨m, List.mem_cons_of_mem _ hm, hmu, hmv⟩
    | none =>
      rw [htail] at h
      by_cases hn : n.url = u
      · obtain rfl : n.id = v := by simpa [hn] using h
        exact ⟨n, List.mem_cons_self _ _, hn, rfl⟩
      · simp [hn] at h

theorem mem_edgePairsOf (pages : List PageContext) (nodes : List FlowNode)
    (pr : String × String) (h : pr ∈ edgePairsOf pages nodes) :
    ∃ page ∈ pages, ∃ link ∈ page.links.getD [],
      urlToId nodes page.url = some pr.1 ∧ urlToId nodes link = some pr.2 := by
  unfold edgePairsOf at h
  obtain ⟨page, hpage, hpr⟩ := List.mem_flatMap.mp h
  cases hfrom : urlToId nodes page.url with
  | none => rw [hfrom] at hpr; simp at hpr
  | some fromId =>
    rw [hfrom] at hpr
    obtain ⟨link, hlink, hmap⟩ := List.mem_filterMap.mp hpr
    cases hto : urlToId nodes link with
    | none => rw [hto] at hmap; simp at hmap
    | some toId =>
      rw [hto] at hmap
      obtain ⟨rfl, rfl⟩ : fromId = pr.1 ∧ toId = pr.2 := by
        have := Option.some.inj hmap
        cases pr
        simp_all
      exact ⟨page, hpage, link, hlink, hfrom, hto⟩

/-! ### Claim C6 -/

/-- C6: the produced edge list contains no duplicates, its length is
`min 120 (number of distinct edges)`, it consists of the first 120 distinct
edge strings in discovery order (the rest silently dropped), and an edge is
emitted only when a page's outgoing link string exactly equals some node's
url (with the edge endpoints being node ids for the pages' urls). -/
theorem c6_edges (targetUrl : String) (pages : List PageContext) (uxCounts : UxCounts)
    (generatedAt : String) :
    (buildFlowArtifacts targetUrl pages uxCounts generatedAt).edges.Nodup ∧
    (buildFlowArtifacts targetUrl pages uxCounts generatedAt).edges.length =
      min 120 (edgeStringsOf pages (nodesOf pages)).toFinset.card ∧
    (buildFlowArtifacts targetUrl pages uxCounts generatedAt).edges =
      (insertionDedup (edgeStringsOf pages (nodesOf pages))).take 120 ∧
    ∀ e ∈ (buildFlowArtifacts targetUrl pages uxCounts generatedAt).edges,
      ∃ page ∈ pages, ∃ link ∈ page.links.getD [],
        ∃ nFrom ∈ nodesOf pages, ∃ nTo ∈ nodesOf pages,
          nFrom.url = page.url ∧ nTo.url = link ∧ e = nFrom.id ++ " --> " ++ nTo.id := by
  rw [buildFlowArtifacts_edges]
  refine ⟨?_, ?_, rfl, ?_⟩
  · exact List.Nodup.sublist (List.take_sublist _ _) (nodup_insertionDedup _)
  · rw [limitedEdgesOf, List.length_take, length_insertionDedup]
  · intro e he
    have he' : e ∈ insertionDedup (edgeStringsOf pages (nodesOf pages)) :=
      (List.take_sublist _ _).subset he
    rw [mem_insertionDedup] at he'
    obtain ⟨pr, hpr, rfl⟩ := List.mem_map.mp he'
    obtain ⟨page, hpage, link, hlink, hfrom, hto⟩ := mem_edgePairsOf pages (nodesOf pages) pr hpr
    obtain ⟨nFrom, hnFrom, hnFromUrl, hnFromId⟩ := urlToId_some_mem _ _ _ hfrom
    obtain ⟨nTo, hnTo, hnToUrl, hnToId⟩ := urlToId_some_mem _ _ _ hto
    exact ⟨page, hpage, link, hlink, nFrom, hnFrom, nTo, hnTo, hnFromUrl, hnToUrl,
      by rw [edgeString, hnFromId, hnToId]⟩

/-- Witness for C6 on a concrete page set with a duplicated link. -/
theorem c6_edges_witness :
    (buildFlowArtifacts "https://x/"
        [{ url := "https://x/", links := some ["https://x/a", "https://x/a", "https://x/"] },
         { url := "https://x/a" }] {} "T").edges.Nodup ∧
    (buildFlowArtifacts "https://x/"
        [{ url := "https://x/", links := some ["https://x/a", "https://x/a", "https://x/"] },
         { url := "https://x/a" }] {} "T").edges.length =
      min 120 (edgeStringsOf
        [{ url := "https://x/", links := some ["https://x/a", "https://x/a", "https://x/"] },
         { url := "https://x/a" }]
        (nodesOf
          [{ url := "https://x/", links := some ["https://x/a", "https://x/a", "https://x/"] },
           { url := "https://x/a" }])).toFinset.card ∧
    ∃ page ∈ ([{ url := "https://x/", links := some ["https://x/a", "https://x/a", "https://x/"] },
         { url := "https://x/a" }] : List PageContext),
      ∃ link ∈ page.links.getD [],
        ∃ nFrom ∈ nodesOf
            [{ url := "https://x/", links := some ["https://x/a", "https://x/a", "https://x/"] },
             { url := "https://x/a" }],
          ∃ nTo ∈ nodesOf
              [{ url := "https://x/", links := some ["https://x/a", "https://x/a", "https://x/"] },
               { url := "https://x/a" }],
            nFrom.url = page.url ∧ nTo.url = link ∧
              "p1 --> p2" = nFrom.id ++ " --> " ++ nTo.id := by
  have h := c6_edges "https://x/"
    [{ url := "https://x/", links := some ["https://x/a", "https://x/a", "https://x/"] },
     { url := "https://x/a" }] {} "T"
  exact ⟨h.1, h.2.1, h.2.2.2 "p1 --> p2" (by decide)⟩

/-! ### Claim C7 -/

theorem count_filter_of_nodup {α : Type} [DecidableEq α] (l : List α) (hl : l.Nodup)
    (p : α → Bool) (a : α) (ha : a ∈ l) :
    (l.filter p).count a = if p a = true then 1 else 0 := by
  by_cases hp : p a = true
  · rw [if_pos hp, List.count_filter hp]
    exact List.count_eq_one_of_mem hl ha
  · rw [if_neg hp, List.count_eq_zero]
    intro hmem
    exact hp (List.mem_filter.mp hmem).2

/-- C7: the diagram source is the fixed sequence of blocks Public (pages with
none of the Login/Checkout/Account tags), Auth (Login-tagged), Checkout,
Account, followed by the edge lines; each group block renders exactly the
nodes whose url is in the group's url set, a node whose url is in several of
the sets being a member of (and rendered once inside) each matching group;
and each of the deduplicated edges is appended exactly once, after all
groups. -/
theorem c7_mermaid (targetUrl : String) (pages : List PageContext) (uxCounts : UxCounts)
    (generatedAt : String) :
    (buildFlowArtifacts targetUrl pages uxCounts generatedAt).mermaid =
      joinSep "\n" (mermaidLinesOf pages (nodesOf pages)
        (limitedEdgesOf pages (nodesOf pages))) ∧
    mermaidLinesOf pages (nodesOf pages) (limitedEdgesOf pages (nodesOf pages)) =
      (["flowchart LR", "  subgraph Public"] ++ publicInner pages (nodesOf pages) ++ ["  end"]
        ++ (if (loginPages pages).length ≠ 0 then
              ["  subgraph Auth"] ++ groupInner (loginUrls pages) (nodesOf pages) ++ ["  end"]
            else [])
        ++ (if (checkoutPages pages).length ≠ 0 then
              ["  subgraph Checkout"] ++ groupInner (checkoutUrls pages) (nodesOf pages) ++
                ["  end"]
            else [])
        ++ (if (accountPages pages).length ≠ 0 then
              ["  subgraph Account"] ++ groupInner (accountUrls pages) (nodesOf pages) ++
                ["  end"]
            else []))
      ++ (limitedEdgesOf pages (nodesOf pages)).map (fun edge => "  " ++ edge) ∧
    (∀ n ∈ nodesOf pages,
      groupInner (loginUrls pages) (nodesOf pages) =
        ((nodesOf pages).filter (fun m => decide (m.url ∈ loginUrls pages))).map
          renderNodeLine ∧
      ((nodesOf pages).filter (fun m => decide (m.url ∈ loginUrls pages))).count n =
        (if n.url ∈ loginUrls pages then 1 else 0) ∧
      ((nodesOf pages).filter (fun m => decide (m.url ∈ checkoutUrls pages))).count n =
        (if n.url ∈ checkoutUrls pages then 1 else 0) ∧
      ((nodesOf pages).filter (fun m => decide (m.url ∈ accountUrls pages))).count n =
        (if n.url ∈ accountUrls pages then 1 else 0) ∧
      ((nodesOf pages).filter (fun m =>
          !(decide (m.url ∈ loginUrls pages)) && !(decide (m.url ∈ checkoutUrls pages)) &&
            !(decide (m.url ∈ accountUrls pages)))).count n =
        (if n.url ∉ loginUrls pages ∧ n.url ∉ checkoutUrls pages ∧ n.url ∉ accountUrls pages
          then 1 else 0)) ∧
    (∀ e ∈ limitedEdgesOf pages (nodesOf pages),
      ((limitedEdgesOf pages (nodesOf pages)).map (fun edge => "  " ++ edge)).count
        ("  " ++ e) = 1) := by
  refine ⟨rfl, by simp [mermaidLinesOf, List.append_assoc], ?_, ?_⟩
  · intro n hn
    refine ⟨rfl, ?_, ?_, ?_, ?_⟩
    · rw [count_filter_of_nodup _ (nodup_nodesOf pages) _ _ hn]
      by_cases h : n.url ∈ loginUrls pages <;> simp [h]
    · rw [count_filter_of_nodup _ (nodup_nodesOf pages) _ _ hn]
      by_cases h : n.url ∈ checkoutUrls pages <;> simp [h]
    · rw [count_filter_of_nodup _ (nodup_nodesOf pages) _ _ hn]
      by_cases h : n.url ∈ accountUrls pages <;> simp [h]
    · rw [count_filter_of_nodup _ (nodup_nodesOf pages) _ _ hn]
      by_cases h1 : n.url ∈ loginUrls pages <;> by_cases h2 : n.url ∈ checkoutUrls pages <;>
        by_cases h3 : n.url ∈ accountUrls pages <;> simp [h1, h2, h3]
  · intro e he
    have hinj : Function.Injective (fun s : String => "  " ++ s) := by
      intro a b h
      exact string_append_left_cancel h
    rw [List.count_map_of_injective _ _ hinj]
    exact List.count_eq_one_of_mem
      (List.Nodup.sublist (List.take_sublist _ _) (nodup_insertionDedup _)) he

/-- Witness for C7 on a page tagged both Login and Checkout. -/
theorem c7_mermaid_witness :
    ((nodesOf [{ url := "https://x/checkout", hasPasswordInput := some true }]).filter
        (fun m => decide (m.url ∈ loginUrls
          [{ url := "https://x/checkout", hasPasswordInput := some true }]))).count
      { id := "p1", url := "https://x/checkout", label := "https://x/checkout" } =
        (if ("https://x/checkout" : String) ∈ loginUrls
          [{ url := "https://x/checkout", hasPasswordInput := some true }] then 1 else 0) ∧
    ((nodesOf [{ url := "https://x/checkout", hasPasswordInput := some true }]).filter
        (fun m => decide (m.url ∈ checkoutUrls
          [{ url := "https://x/checkout", hasPasswordInput := some true }]))).count
      { id := "p1", url := "https://x/checkout", label := "https://x/checkout" } =
        (if ("https://x/checkout" : String) ∈ checkoutUrls
          [{ url := "https://x/checkout", hasPasswordInput := some true }] then 1 else 0) := by
  have h := (c7_mermaid "https://x/"
    [{ url := "https://x/checkout", hasPasswordInput := some true }] {} "T").2.2.1
    { id := "p1", url := "https://x/checkout", label := "https://x/checkout" } (by decide)
  exact ⟨h.2.1, h.2.2.1⟩

/-! ### Claim C8 -/

/-- C8: synthesis succeeds on the empty page list, producing `nodeCount = 0`,
`edgeCount = 0`, and a summary containing the literal string
"Pages discovered: 0". -/
theorem c8_empty_pages (targetUrl : String) (uxCounts : UxCounts) (generatedAt : String) :
    (buildFlowArtifacts targetUrl [] uxCounts generatedAt).flowMeta.nodeCount = 0 ∧
    (buildFlowArtifacts targetUrl [] uxCounts generatedAt).flowMeta.edgeCount = 0 ∧
    ∃ pre post, (buildFlowArtifacts targetUrl [] uxCounts generatedAt).summary =
      pre ++ "Pages discovered: 0" ++ post := by
  refine ⟨rfl, rfl, ?_⟩
  rw [buildFlowArtifacts_summary]
  have hmem : ("- Pages discovered: " ++ natStr ([] : List PageContext).length) ∈
      summaryLines targetUrl [] uxCounts generatedAt := by
    unfold summaryLines
    simp
  obtain ⟨pre, post, h⟩ := joinSep_mem_split "\n" _ _ hmem
  refine ⟨pre ++ "- ", post, ?_⟩
  rw [h]
  have hsplit : ("- Pages discovered: " ++ natStr ([] : List PageContext).length : String) =
      "- " ++ "Pages discovered: 0" := by decide
  rw [hsplit]
  simp [String.append_assoc]

/-! ### Claim C9 -/

/-- C9: a page with `hasPasswordInput = true` is Login-tagged regardless of
its url or title text: it passes the login filter, contributes to the
login-related count, its url is in the Auth group's url set, and its node's
line is rendered inside the Auth group of the diagram source. -/
theorem c9_password_login (pages : List PageContext) (p : PageContext) (hp : p ∈ pages)
    (hpw : p.hasPasswordInput = some true) :
    isLoginPage p = true ∧
    p ∈ loginPages pages ∧
    (loginPages pages).length ≠ 0 ∧
    p.url ∈ loginUrls pages ∧
    ∃ n ∈ nodesOf pages, n.url = p.url ∧
      renderNodeLine n ∈ groupInner (loginUrls pages) (nodesOf pages) ∧
      renderNodeLine n ∈
        mermaidLinesOf pages (nodesOf pages) (limitedEdgesOf pages (nodesOf pages)) := by
  have hlogin : isLoginPage p = true := by
    simp [isLoginPage, hpw]
  have hmem : p ∈ loginPages pages := List.mem_filter.mpr ⟨hp, hlogin⟩
  have hlen : (loginPages pages).length ≠ 0 := by
    have := List.length_pos.mpr (List.ne_nil_of_mem hmem)
    omega
  have hurl : p.url ∈ loginUrls pages := List.mem_map.mpr ⟨p, hmem, rfl⟩
  have hnode : ∃ n ∈ nodesOf pages, n.url = p.url := by
    have : p.url ∈ (nodesOf pages).map (fun n => n.url) := by
      rw [show nodesOf pages = nodesFrom 0 pages from rfl, map_url_nodesFrom]
      exact List.mem_map.mpr ⟨p, hp, rfl⟩
    obtain ⟨n, hn, hnu⟩ := List.mem_map.mp this
    exact ⟨n, hn, hnu⟩
  obtain ⟨n, hn, hnu⟩ := hnode
  have hgroup : renderNodeLine n ∈ groupInner (loginUrls pages) (nodesOf pages) :=
    List.mem_map.mpr ⟨n, List.mem_filter.mpr ⟨hn, by simp [hnu, hurl]⟩, rfl⟩
  refine ⟨hlogin, hmem, hlen, hurl, n, hn, hnu, hgroup, ?_⟩
  have hblock : renderNodeLine n ∈
      (if (loginPages pages).length ≠ 0 then
        ["  subgraph Auth"] ++ groupInner (loginUrls pages) (nodesOf pages) ++ ["  end"]
      else []) := by
    rw [if_pos hlen]
    exact List.mem_append.mpr (Or.inl (List.mem_append.mpr (Or.inr hgroup)))
  simp only [mermaidLinesOf, List.mem_append]
  tauto

/-- Witness for C9: a page whose url and title mention nothing login-like but
whose `hasPasswordInput` flag is set. -/
theorem c9_password_login_witness :
    isLoginPage { url := "https://x/totally-public", hasPasswordInput := some true } = true ∧
    ({ url := "https://x/totally-public", hasPasswordInput := some true } : PageContext) ∈
      loginPages [{ url := "https://x/totally-public", hasPasswordInput := some true }] ∧
    ("https://x/totally-public" : String) ∈
      loginUrls [{ url := "https://x/totally-public", hasPasswordInput := some true }] := by
  have h := c9_password_login
    [{ url := "https://x/totally-public", hasPasswordInput := some true }]
    { url := "https://x/totally-public", hasPasswordInput := some true }
    (List.mem_singleton_self _) rfl
  exact ⟨h.1, h.2.1, h.2.2.2.1⟩

/-! ### Claim C10 -/

/-- The last-occurrence characterization of the url-to-id lookup: a hit of
`urlToId` is the positional id of some page with that url after which no other
page has that url. -/
theorem urlToId_last_occurrence (pages : List PageContext) (u v : String)
    (h : urlToId (nodesOf pages) u = some v) :
    ∃ k, ∃ hk : k < pages.length, (pages.get ⟨k, hk⟩).url = u ∧ v = "p" ++ natStr (k + 1) ∧
      ∀ k', ∀ hk' : k' < pages.length, k < k' → (pages.get ⟨k', hk'⟩).url ≠ u := by
  obtain ⟨k, hk, hget, hafter⟩ := mapGetLast_eq_some _ _ _ h
  have hklen : k < pages.length := by
    have := hk
    rwa [List.length_map, show nodesOf pages = nodesFrom 0 pages from rfl,
      length_nodesFrom] at this
  have hknodes : k < (nodesFrom 0 pages).length := by rwa [length_nodesFrom]
  have hentry : ((nodesOf pages).map (fun node => (node.url, node.id))).get ⟨k, hk⟩ =
      (((nodesOf pages).get ⟨k, hknodes⟩).url, ((nodesOf pages).get ⟨k, hknodes⟩).id) := by
    rw [List.get_eq_getElem, List.getElem_map]
    rfl
  rw [hentry] at hget
  have hnode : (nodesOf pages).get ⟨k, hknodes⟩ = mkNode k (pages.get ⟨k, hklen⟩) := by
    have := nodesFrom_get pages 0 k hknodes hklen
    simpa using this
  rw [hnode] at hget
  have hurl : (pages.get ⟨k, hklen⟩).url = u := congrArg Prod.fst hget
  have hid : ("p" ++ natStr (k + 1) : String) = v := congrArg Prod.snd hget
  refine ⟨k, hklen, hurl, hid.symm, ?_⟩
  intro k' hk' hlt
  have hk'nodes : k' < (nodesFrom 0 pages).length := by rwa [length_nodesFrom]
  have hk'ent : k' < ((nodesOf pages).map (fun node => (node.url, node.id))).length := by
    rwa [List.length_map, show nodesOf pages = nodesFrom 0 pages from rfl, length_nodesFrom]
  have := hafter k' hk'ent hlt
  have hent' : (((nodesOf pages).map (fun node => (node.url, node.id))).get ⟨k', hk'ent⟩).1 =
      (pages.get ⟨k', hk'⟩).url := by
    rw [List.get_eq_getElem, List.getElem_map]
    have hn := nodesFrom_get pages 0 k' hk'nodes hk'
    show ((nodesOf pages).get ⟨k', hk'nodes⟩).url = _
    rw [show (nodesOf pages).get ⟨k', hk'nodes⟩ = mkNode (0 + k') (pages.get ⟨k', hk'⟩) from hn]
    simp [mkNode]
  rwa [hent'] at this

/-- C10: when several pages share a url each still yields its own node (the
node count includes the duplicates), the url-to-id lookup maps a url to the
positional id of the *last* page bearing it, and consequently no edge endpoint
ever references an earlier duplicate's node id. -/
theorem c10_duplicate_urls (targetUrl : String) (pages : List PageContext) (uxCounts : UxCounts)
    (generatedAt : String) (i j : Nat) (hij : i < j) (hj : j < pages.length)
    (hurl : (pages.get ⟨i, lt_trans hij hj⟩).url = (pages.get ⟨j, hj⟩).url) :
    (buildFlowArtifacts targetUrl pages uxCounts generatedAt).flowMeta.nodeCount =
        pages.length ∧
    (∀ u v, urlToId (nodesOf pages) u = some v →
      ∃ k, ∃ hk : k < pages.length, (pages.get ⟨k, hk⟩).url = u ∧
        v = "p" ++ natStr (k + 1) ∧
        ∀ k', ∀ hk' : k' < pages.length, k < k' → (pages.get ⟨k', hk'⟩).url ≠ u) ∧
    (∀ pr ∈ edgePairsOf pages (nodesOf pages),
      pr.1 ≠ "p" ++ natStr (i + 1) ∧ pr.2 ≠ "p" ++ natStr (i + 1)) ∧
    edgeStringsOf pages (nodesOf pages) = (edgePairsOf pages (nodesOf pages)).map edgeString := by
  have hnotLast : ∀ u v, urlToId (nodesOf pages) u = some v → v ≠ "p" ++ natStr (i + 1) := by
    intro u v hv hvi
    obtain ⟨k, hk, hku, hkv, hafter⟩ := urlToId_last_occurrence pages u v hv
    have hki : k = i := by
      have : natStr (k + 1) = natStr (i + 1) :=
        string_append_left_cancel (a := "p") (hkv ▸ hvi)
      have := natStr_injective this
      omega
    subst hki
    exact hafter j hj hij (hurl ▸ hku)
  refine ⟨?_, urlToId_last_occurrence pages, ?_, rfl⟩
  · rw [buildFlowArtifacts_nodeCount, show nodesOf pages = nodesFrom 0 pages from rfl,
      length_nodesFrom]
  · intro pr hpr
    obtain ⟨page, hpage, link, hlink, hfrom, hto⟩ :=
      mem_edgePairsOf pages (nodesOf pages) pr hpr
    exact ⟨hnotLast _ _ hfrom, hnotLast _ _ hto⟩

/-- Witness for C10: three pages where the first and third share a url; the
one produced edge targets the third page's node id `p3`, never `p1`. -/
theorem c10_duplicate_urls_witness :
    (buildFlowArtifacts "https://x/"
        [{ url := "https://x/a" }, { url := "https://x/b", links := some ["https://x/a"] },
         { url := "https://x/a" }] {} "T").flowMeta.nodeCount = 3 ∧
    (("p2", "p3") ∈ edgePairsOf
        [{ url := "https://x/a" }, { url := "https://x/b", links := some ["https://x/a"] },
         { url := "https://x/a" }]
        (nodesOf
          [{ url := "https://x/a" }, { url := "https://x/b", links := some ["https://x/a"] },
           { url := "https://x/a" }]) →
      (("p2", "p3") : String × String).1 ≠ "p" ++ natStr (0 + 1) ∧
        (("p2", "p3") : String × String).2 ≠ "p" ++ natStr (0 + 1)) := by
  have h := c10_duplicate_urls "https://x/"
    [{ url := "https://x/a" }, { url := "https://x/b", links := some ["https://x/a"] },
     { url := "https://x/a" }] {} "T" 0 2 (by decide) (by decide) rfl
  exact ⟨h.1, h.2.2.1 ("p2", "p3")⟩

end ProcessFlow

